import Mathlib

/-!
Verification development for the MADDPG agent in `maddpg_agent.py`.

The agent's orchestration logic (`act`, `learn`, `train`, `end_episode`,
`soft_update`, the vectorization helpers and the reward normalization) is
embedded as pure Lean functions over `ℚ`.  Collaborators that the source
treats as interfaces (the actor/critic function approximators, the replay
buffer, the Ornstein-Uhlenbeck exploration process, and the torch
optimizers/autodiff machinery) are modelled abstractly: networks are
functions, gradient/optimizer steps are oracle parameters, and the buffer
and noise process are modelled from the specification's interface
description.
-/

/- Constants from the top of maddpg_agent.py. -/

/-- Size of the replay buffer storing past experiences for training. -/
def REPLAY_BUFFER_SIZE : ℕ := 1000000

/-- Number of experiences used per training minibatch. -/
def BATCH_SIZE : ℕ := 1024

/-- Number of steps taken between each round of training. -/
def STEPS_BETWEEN_TRAINING : ℕ := 4

/-- Reward decay, 0.95. -/
def GAMMA : ℚ := 95 / 100

/-- Rate at which target networks are updated, 1e-2. -/
def TAU : ℚ := 1 / 100

/-- One transition: per-agent states, actions, rewards, next states and
done flags, each indexed by agent.  Rewards and done flags are scalars
per agent; done flags are 0 or 1 after the uint8-to-float conversion in
`vectorize_per_agent_data`. -/
structure Experience where
  states : List (List ℚ)
  actions : List (List ℚ)
  rewards : List ℚ
  next_states : List (List ℚ)
  dones : List ℚ

/-- An actor network maps one agent's state vector to an action vector. -/
def ActorNet : Type := List ℚ → List ℚ

/-- A critic network maps the joint state and joint action to a scalar. -/
def CriticNet : Type := List ℚ → List ℚ → ℚ

/-- Default actor used for out-of-range list indexing. -/
def defActor : ActorNet := fun _ => []

/-- Default critic used for out-of-range list indexing. -/
def defCritic : CriticNet := fun _ _ => 0

/-- The `if e is not None` filtering that every vectorization helper in the
source applies to a sampled batch. -/
def validExperiences (es : List (Option Experience)) : List Experience :=
  es.filterMap id

/-- Torch `cat(_, dim=1)` on a list of equal-height blocks: each block is a
list of rows and corresponding rows are concatenated across the blocks. -/
def catDim1 : List (List (List ℚ)) → List (List ℚ)
  | [] => []
  | [b] => b
  | b :: bs => List.zipWith (· ++ ·) b (catDim1 bs)

/-- Rows of `np.vstack([e.states[agent_index] for e in experiences if e is not None])`
from `vectorize_per_agent_data`. -/
def vectorize_states (es : List (Option Experience)) (agent_index : ℕ) : List (List ℚ) :=
  (validExperiences es).map (fun e => e.states.getD agent_index [])

/-- Rows of the per-agent reward column from `vectorize_per_agent_data`. -/
def vectorize_rewards (es : List (Option Experience)) (agent_index : ℕ) : List ℚ :=
  (validExperiences es).map (fun e => e.rewards.getD agent_index 0)

/-- Rows of the per-agent next-state block from `vectorize_per_agent_data`. -/
def vectorize_next_states (es : List (Option Experience)) (agent_index : ℕ) : List (List ℚ) :=
  (validExperiences es).map (fun e => e.next_states.getD agent_index [])

/-- Rows of the per-agent done column from `vectorize_per_agent_data`. -/
def vectorize_dones (es : List (Option Experience)) (agent_index : ℕ) : List ℚ :=
  (validExperiences es).map (fun e => e.dones.getD agent_index 0)

/-- The `actions` tensor of `vectorize_actions_and_states`: per batch row,
`np.concatenate(e.actions)` over all agents in agent-index order. -/
def vectorize_joint_actions (es : List (Option Experience)) : List (List ℚ) :=
  (validExperiences es).map (fun e => e.actions.flatten)

/-- The `full_states` tensor of `vectorize_actions_and_states`. -/
def vectorize_full_states (es : List (Option Experience)) : List (List ℚ) :=
  (validExperiences es).map (fun e => e.states.flatten)

/-- The `full_next_states` tensor of `vectorize_actions_and_states`. -/
def vectorize_full_next_states (es : List (Option Experience)) : List (List ℚ) :=
  (validExperiences es).map (fun e => e.next_states.flatten)

/-- The triple returned by `vectorize_actions_and_states`. -/
def vectorize_actions_and_states (es : List (Option Experience)) :
    List (List ℚ) × List (List ℚ) × List (List ℚ) :=
  (vectorize_joint_actions es, vectorize_full_states es, vectorize_full_next_states es)

/-- `predict_and_vectorize_actions`: for each agent position `i`, the block
is agent `agent_index`'s current actor evaluated on its own batch states
when `i = agent_index`, and the stored batch actions of agent `i`
otherwise; blocks are concatenated along dim 1 in agent-index order. -/
def predict_and_vectorize_actions (actors : List ActorNet) (num_agents : ℕ)
    (es : List (Option Experience)) (agent_index : ℕ) : List (List ℚ) :=
  catDim1 ((List.range num_agents).map (fun i =>
    if i = agent_index then
      (validExperiences es).map (fun e => (actors.getD agent_index defActor) (e.states.getD i []))
    else
      (validExperiences es).map (fun e => e.actions.getD i [])))

/-- `predict_and_vectorize_next_actions`: each agent's target actor applied
to that agent's batch next-states, concatenated along dim 1 in agent-index
order (the `.detach()` in the source stops gradient tracking; in this value
level embedding the result is an ordinary constant list). -/
def predict_and_vectorize_next_actions (actor_targets : List ActorNet) (num_agents : ℕ)
    (es : List (Option Experience)) : List (List ℚ) :=
  catDim1 ((List.range num_agents).map (fun i =>
    (validExperiences es).map (fun e => (actor_targets.getD i defActor) (e.next_states.getD i []))))

/-- Mean along dimension 0 of a column of rationals. -/
def batchMean (xs : List ℚ) : ℚ := xs.sum / (xs.length : ℚ)

/-- Bessel-corrected (torch default) variance along dimension 0. -/
def batchVarUnbiased (xs : List ℚ) : ℚ :=
  ((xs.map (fun x => (x - batchMean xs) ^ 2)).sum) / ((xs.length : ℚ) - 1)

/-- The body of `normalize`, `(value - mean)/(std + 1e-5)`, with the
standard deviation supplied as a value `s` (torch `std(0)` takes a real
square root, which is characterized in the theorems by `0 ≤ s` and
`s ^ 2 = batchVarUnbiased xs`). -/
def normalizeWith (s : ℚ) (xs : List ℚ) : List ℚ :=
  xs.map (fun x => (x - batchMean xs) / (s + 1 / 100000))

/-- `soft_update(target_parameters, local_parameters, tau)`:
`target.data.copy_(tau*local.data + (1.0-tau)*target.data)` over the
zipped parameter lists. -/
def soft_update (tau : ℚ) (target_parameters local_parameters : List ℚ) : List ℚ :=
  List.zipWith (fun t l => tau * l + (1 - tau) * t) target_parameters local_parameters

/-- Elementwise combination of three equal-length columns, used for the
broadcast expression `rewards + GAMMA * q * (1 - dones)`. -/
def zipWith3 (f : ℚ → ℚ → ℚ → ℚ) : List ℚ → List ℚ → List ℚ → List ℚ
  | a :: as, b :: bs, c :: cs => f a b c :: zipWith3 f as bs cs
  | _, _, _ => []

/-- Batched application of a critic: one scalar per aligned pair of a
joint-state row and a joint-action row. -/
def criticBatch (c : CriticNet) (state_rows action_rows : List (List ℚ)) : List ℚ :=
  List.zipWith c state_rows action_rows

/-- The `q_target` column of `train`:
`rewards + GAMMA * critic_target(full_next_states, next_actions) * (1-dones)`,
with `rewards` already normalized. -/
def q_target_rows (ct : CriticNet) (nrewards dones : List ℚ)
    (full_next_states next_actions : List (List ℚ)) : List ℚ :=
  zipWith3 (fun r q d => r + GAMMA * q * (1 - d))
    nrewards (criticBatch ct full_next_states next_actions) dones

/-- Oracle for the parts of a training step performed by the torch
autodiff/optimizer machinery, which the source consumes through the
`Optimizer.step/zero_grad` and backward-pass interfaces.  `σ` is the
optimizer's internal state (e.g. Adam moments).
`std` models `Tensor.std(0)` (a real square root over floats, so it is
kept abstract here and characterized in the theorems);
`criticStep` consumes exactly the data determining the critic loss
(the critic, its optimizer state, `full_states`, `actions`, `q_target`);
`actorStep` consumes the actor, its optimizer state, the updated critic,
`full_states` and `actions_predicted` (the data of the policy loss);
`actorSoft`/`criticSoft` are the function-level counterparts of
`soft_update` with blend factor `TAU` (the parameter-level formula is
verified separately on `soft_update`). -/
structure GradOracle (σ : Type) where
  std : List ℚ → ℚ
  criticStep : CriticNet → σ → List (List ℚ) → List (List ℚ) → List ℚ → CriticNet × σ
  actorStep : ActorNet → σ → CriticNet → List (List ℚ) → List (List ℚ) → ActorNet × σ
  actorSoft : ActorNet → ActorNet → ActorNet
  criticSoft : CriticNet → CriticNet → CriticNet

/-- The mutable per-agent networks and optimizer states owned by the
MADDPG agent: the six parallel lists built in `__init__`. -/
structure TrainState (σ : Type) where
  actors : List ActorNet
  actor_targets : List ActorNet
  critics : List CriticNet
  critic_targets : List CriticNet
  actor_opts : List σ
  critic_opts : List σ

/-- The normalized reward column used by `train` for agent `i`:
`rewards = self.normalize(rewards)` applied to the batch rewards of that
agent only. -/
def normalizedRewards {σ : Type} (g : GradOracle σ) (es : List (Option Experience))
    (i : ℕ) : List ℚ :=
  normalizeWith (g.std (vectorize_rewards es i)) (vectorize_rewards es i)

/-- The `q_target` tensor computed in the body of `train` for agent `i`:
built from the normalized rewards, agent `i`'s done column, the target
critic of agent `i`, and the precomputed `full_next_states` and
`next_actions`.  It mentions only `critic_targets`, never the local
(gradient-bearing) networks. -/
def qTargetUsed {σ : Type} (g : GradOracle σ) (ts : TrainState σ)
    (es : List (Option Experience)) (i : ℕ)
    (full_next_states next_actions : List (List ℚ)) : List ℚ :=
  q_target_rows (ts.critic_targets.getD i defCritic)
    (normalizedRewards g es i) (vectorize_dones es i) full_next_states next_actions

/-- One iteration of the per-agent loop in `train`: critic update from the
MSE between `critic(full_states, actions)` and `q_target`, then actor
update from the policy loss on `predict_and_vectorize_actions` (evaluated
after the critic step, per source order), then soft updates of both
targets toward the just-updated locals. -/
def trainAgentStep {σ : Type} [Inhabited σ] (g : GradOracle σ) (num_agents : ℕ)
    (es : List (Option Experience))
    (next_actions actions full_states full_next_states : List (List ℚ))
    (ts : TrainState σ) (i : ℕ) : TrainState σ :=
  let q_target := qTargetUsed g ts es i full_next_states next_actions
  let cs := g.criticStep (ts.critics.getD i defCritic) (ts.critic_opts.getD i default)
    full_states actions q_target
  let ts1 : TrainState σ :=
    { ts with critics := ts.critics.set i cs.1, critic_opts := ts.critic_opts.set i cs.2 }
  let actions_predicted := predict_and_vectorize_actions ts1.actors num_agents es i
  let as_ := g.actorStep (ts1.actors.getD i defActor) (ts1.actor_opts.getD i default)
    cs.1 full_states actions_predicted
  let ts2 : TrainState σ :=
    { ts1 with actors := ts1.actors.set i as_.1, actor_opts := ts1.actor_opts.set i as_.2 }
  { ts2 with
    actor_targets := ts2.actor_targets.set i
      (g.actorSoft (ts2.actor_targets.getD i defActor) as_.1),
    critic_targets := ts2.critic_targets.set i
      (g.criticSoft (ts2.critic_targets.getD i defCritic) cs.1) }

/-- `train(experiences)`: `next_actions` and the
`(actions, full_states, full_next_states)` triple are computed once, up
front, from the pre-update state, and the per-agent loop folds over the
agent indices with those fixed values. -/
def train {σ : Type} [Inhabited σ] (g : GradOracle σ) (num_agents : ℕ)
    (ts : TrainState σ) (es : List (Option Experience)) : TrainState σ :=
  let next_actions := predict_and_vectorize_next_actions ts.actor_targets num_agents es
  let v := vectorize_actions_and_states es
  (List.range num_agents).foldl
    (fun acc i => trainAgentStep g num_agents es next_actions v.1 v.2.1 v.2.2 acc i) ts

/-- Modelled from the spec: the exploration (Ornstein-Uhlenbeck) noise
process interface — a stateful generator over an internal state `ω`, whose
`sample` returns one noise vector and the advanced state, and whose
`reset` value is the neutral initial state. -/
structure NoiseProc (ω : Type) where
  sample : ω → List ℚ × ω
  reset : ω

/-- Elementwise `np.clip(x, -1, 1)`. -/
def clip1 (x : ℚ) : ℚ := min 1 (max (-1) x)

/-- The per-agent loop of `act` over `zip(all_states, self.actors)`: run
the actor on the state, optionally add one fresh noise sample (advancing
the noise state), clip to [-1, 1], and stack the rows in agent order. -/
def actRows {ω : Type} (np : NoiseProc ω) (noise : Bool) :
    List (List ℚ × ActorNet) → ω → List (List ℚ) × ω
  | [], w => ([], w)
  | p :: rest, w =>
    let raw := p.2 p.1
    let noised := if noise then List.zipWith (· + ·) raw (np.sample w).1 else raw
    let w1 := if noise then (np.sample w).2 else w
    let tail_rows := actRows np noise rest w1
    (noised.map clip1 :: tail_rows.1, tail_rows.2)

/-- `act(all_states, noise)`: the stacked matrix of clipped per-agent
actions, together with the exploration process state after the call. -/
def act {ω : Type} (np : NoiseProc ω) (actors : List ActorNet)
    (all_states : List (List ℚ)) (noise : Bool) (w : ω) : List (List ℚ) × ω :=
  actRows np noise (all_states.zip actors) w

/-- Modelled from the spec: `ReplayBuffer.add` appends one record to a
bounded FIFO store of capacity `REPLAY_BUFFER_SIZE`, evicting the oldest
record when the capacity would be exceeded. -/
def bufferAdd (b : List Experience) (e : Experience) : List Experience :=
  if REPLAY_BUFFER_SIZE < (b ++ [e]).length then (b ++ [e]).tail else b ++ [e]

/-- Modelled from the spec: `ReplayBuffer.sample(n)` draws `n` stored
records (uniform randomness is abstracted to a deterministic selection;
the result is a list of optional records because the source defensively
filters `None` entries out of sampled batches). -/
def sample (n : ℕ) (b : List Experience) : List (Option Experience) :=
  (b.take n).map some

/-- The full mutable state of a `MADDPGAgent`: the per-agent networks and
optimizer states, the shared replay buffer, the step counter, and the
exploration process state. -/
structure AgentState (σ ω : Type) where
  train_state : TrainState σ
  buffer : List Experience
  steps : ℕ
  noiseState : ω

/-- `learn(experience)`: add the experience to the replay buffer,
increment the step counter, and if the incremented counter is divisible by
`STEPS_BETWEEN_TRAINING` and the buffer holds at least `BATCH_SIZE`
records, run `train` on a sampled batch.  The boolean records whether
`train` was invoked (the call-count instrumentation of the spec's test). -/
def learn {σ ω : Type} [Inhabited σ] (g : GradOracle σ) (num_agents : ℕ)
    (st : AgentState σ ω) (e : Experience) : AgentState σ ω × Bool :=
  let buffer1 := bufferAdd st.buffer e
  let steps1 := st.steps + 1
  if steps1 % STEPS_BETWEEN_TRAINING = 0 ∧ BATCH_SIZE ≤ buffer1.length then
    let st1 : AgentState σ ω :=
      { st with
        buffer := buffer1
        steps := steps1
        train_state := train g num_agents st.train_state (sample BATCH_SIZE buffer1) }
    (st1, true)
  else
    ({ st with buffer := buffer1, steps := steps1 }, false)

/-- `end_episode()`: reset the exploration process and the step counter. -/
def end_episode {σ ω : Type} (np : NoiseProc ω) (st : AgentState σ ω) : AgentState σ ω :=
  { st with noiseState := np.reset, steps := 0 }

/-- An event in a caller's control loop: one `learn` call or one
`end_episode` call. -/
inductive AgentEvent where
  | learnE (e : Experience)
  | endE

/-- Run a sequence of `learn`/`end_episode` events and collect, for each
`learn` call in order, whether it invoked `train`. -/
def runEvents {σ ω : Type} [Inhabited σ] (g : GradOracle σ) (np : NoiseProc ω)
    (num_agents : ℕ) : AgentState σ ω → List AgentEvent → List Bool
  | _, [] => []
  | st, AgentEvent.learnE e :: evs =>
    (learn g num_agents st e).2 :: runEvents g np num_agents (learn g num_agents st e).1 evs
  | st, AgentEvent.endE :: evs => runEvents g np num_agents (end_episode np st) evs

/-- Length evolution of the bounded buffer under one `add`. -/
def bufLenAdd (l : ℕ) : ℕ := if REPLAY_BUFFER_SIZE < l + 1 then l else l + 1

/-- The pure training-cadence machine: it tracks only the step counter and
the buffer length, with `learn` incrementing both (buffer length capped)
and `end_episode` resetting the step counter to 0. -/
def cadenceRun : ℕ × ℕ → List AgentEvent → List Bool
  | _, [] => []
  | p, AgentEvent.learnE _ :: evs =>
    decide ((p.1 + 1) % STEPS_BETWEEN_TRAINING = 0 ∧ BATCH_SIZE ≤ bufLenAdd p.2) ::
      cadenceRun (p.1 + 1, bufLenAdd p.2) evs
  | p, AgentEvent.endE :: evs => cadenceRun (0, p.2) evs

/-- Per-agent initial parameter vectors drawn at network construction
time, indexed by agent: the freshly initialized local and target actor and
critic parameters, before the constructor's hard synchronization. -/
structure NetworkInit where
  actorLocal : ℕ → List ℚ
  actorTargetRaw : ℕ → List ℚ
  criticLocal : ℕ → List ℚ
  criticTargetRaw : ℕ → List ℚ

/-- The parameter lists after the `__init__` loop: for each agent index,
the local parameters are kept as initialized and each target is the result
of `soft_update(target.parameters(), local.parameters(), 1)`. -/
structure ConstructedParams where
  actor_params : List (List ℚ)
  actor_target_params : List (List ℚ)
  critic_params : List (List ℚ)
  critic_target_params : List (List ℚ)

/-- The constructor loop of `__init__` at the parameter level. -/
def constructParams (num_agents : ℕ) (p : NetworkInit) : ConstructedParams :=
  { actor_params := (List.range num_agents).map p.actorLocal,
    actor_target_params := (List.range num_agents).map
      (fun i => soft_update 1 (p.actorTargetRaw i) (p.actorLocal i)),
    critic_params := (List.range num_agents).map p.criticLocal,
    critic_target_params := (List.range num_agents).map
      (fun i => soft_update 1 (p.criticTargetRaw i) (p.criticLocal i)) }

/- Concrete fixtures used to evaluate the definitions at specific inputs. -/

/-- An experience with empty per-agent data. -/
def e0 : Experience := ⟨[], [], [], [], []⟩

/-- A one-agent experience with reward 5 and done flag 1. -/
def eDone : Experience := ⟨[[0]], [[0]], [5], [[0]], [1]⟩

/-- One-agent experiences with rewards 0, 2 and 4. -/
def eRew0 : Experience := ⟨[[0]], [[0]], [0], [[0]], [0]⟩

/-- Second reward fixture. -/
def eRew2 : Experience := ⟨[[0]], [[0]], [2], [[0]], [0]⟩

/-- Third reward fixture. -/
def eRew4 : Experience := ⟨[[0]], [[0]], [4], [[0]], [0]⟩

/-- A gradient oracle whose steps leave the networks unchanged. -/
def g0 : GradOracle Unit :=
  { std := fun _ => 0
    criticStep := fun c s _ _ _ => (c, s)
    actorStep := fun a s _ _ _ => (a, s)
    actorSoft := fun t _ => t
    criticSoft := fun t _ => t }

/-- A gradient oracle whose `std` is the constant 2 (the exact sample
standard deviation of the reward batch `[0, 2, 4]`). -/
def gStd2 : GradOracle Unit :=
  { g0 with std := fun _ => 2 }

/-- A trivial exploration process over a unit state. -/
def np0 : NoiseProc Unit := { sample := fun w => ([], w), reset := () }

/-- An exploration process producing the fixed two-component vector
`[5, -7]`. -/
def npBig : NoiseProc Unit := { sample := fun w => ([5, -7], w), reset := () }

/-- An empty train state. -/
def ts0 : TrainState Unit := ⟨[], [], [], [], [], []⟩

/-- A one-agent train state whose target critic is the constant 2. -/
def tsC2 : TrainState Unit := ⟨[], [], [], [fun _ _ => 2], [], []⟩

/-- Agent state with 1021 buffered records and step counter 0. -/
def stA : AgentState Unit Unit := ⟨ts0, List.replicate 1021 e0, 0, ()⟩

/-- Agent state with 1023 buffered records and step counter 3, so the next
`learn` call triggers training. -/
def stW : AgentState Unit Unit := ⟨ts0, List.replicate 1023 e0, 3, ()⟩

/-- Agent state with an empty buffer and step counter 0. -/
def stQ : AgentState Unit Unit := ⟨ts0, [], 0, ()⟩

/-- A one-actor list whose actor ignores its input. -/
def actors5 : List ActorNet := [fun _ => [2, -3]]

/-- Concrete initial network parameters for one agent: local and target
parameter vectors of matching lengths. -/
def p0 : NetworkInit :=
  { actorLocal := fun _ => [1, 2]
    actorTargetRaw := fun _ => [0, 0]
    criticLocal := fun _ => [3]
    criticTargetRaw := fun _ => [0] }

/-- A one-record sampled batch whose only record is `eDone`. -/
def esC2 : List (Option Experience) := [some eDone]

/-- A three-record sampled batch with agent-0 rewards 0, 2 and 4. -/
def esRew : List (Option Experience) := [some eRew0, some eRew2, some eRew4]

/-- Four learn events on the empty experience. -/
def evsNoEnd : List AgentEvent :=
  [AgentEvent.learnE e0, AgentEvent.learnE e0, AgentEvent.learnE e0, AgentEvent.learnE e0]

/-- The same four learn events with an `end_episode` before the last. -/
def evsWithEnd : List AgentEvent :=
  [AgentEvent.learnE e0, AgentEvent.learnE e0, AgentEvent.learnE e0,
   AgentEvent.endE, AgentEvent.learnE e0]

/- Helper lemmas. -/

/-- Clipping keeps every value in the closed interval [-1, 1]. -/
lemma clip1_bounds (x : ℚ) : -1 ≤ clip1 x ∧ clip1 x ≤ 1 :=
  ⟨le_min (by norm_num) (le_max_left _ _), min_le_left _ _⟩

/-- Soft update with blend factor 1 is a full copy of the local
parameters. -/
lemma soft_update_one (t l : List ℚ) (h : l.length ≤ t.length) :
    soft_update 1 t l = l := by
  induction t generalizing l with
  | nil =>
    have hl : l = [] := List.eq_nil_of_length_eq_zero (Nat.le_zero.mp h)
    simp [hl, soft_update]
  | cons a t ih =>
    cases l with
    | nil => simp [soft_update]
    | cons b l =>
      have h' : l.length ≤ t.length := by simpa using h
      have ht := ih l h'
      simp only [soft_update, List.zipWith_cons_cons, one_mul, sub_self, zero_mul,
        add_zero, List.cons.injEq, true_and]
      simpa [soft_update] using ht

/-- Indexing into `((List.range n).map f)` below the bound. -/
lemma getD_map_range (f : ℕ → List ℚ) (n i : ℕ) (hi : i < n) :
    ((List.range n).map f).getD i [] = f i := by
  rw [List.getD_eq_getElem _ _ (by simpa using hi)]
  simp

/-- Indexing into `zipWith3` below all three bounds. -/
lemma getD_zipWith3 (f : ℚ → ℚ → ℚ → ℚ) (as bs cs : List ℚ) (r : ℕ)
    (ha : r < as.length) (hb : r < bs.length) (hc : r < cs.length) :
    (zipWith3 f as bs cs).getD r 0 = f (as.getD r 0) (bs.getD r 0) (cs.getD r 0) := by
  induction as generalizing bs cs r with
  | nil => simp at ha
  | cons a as ih =>
    cases bs with
    | nil => simp at hb
    | cons b bs =>
      cases cs with
      | nil => simp at hc
      | cons c cs =>
        cases r with
        | zero => rfl
        | succ r =>
          simp only [zipWith3, List.getD_cons_succ]
          exact ih bs cs r (by simpa using ha) (by simpa using hb) (by simpa using hc)

/-- Indexing into a batched critic application below both bounds. -/
lemma getD_criticBatch (c : CriticNet) (ss as : List (List ℚ)) (r : ℕ)
    (hs : r < ss.length) (ha : r < as.length) :
    (criticBatch c ss as).getD r 0 = c (ss.getD r []) (as.getD r []) := by
  have hlen : r < (criticBatch c ss as).length := by
    simp only [criticBatch, List.length_zipWith]
    omega
  rw [List.getD_eq_getElem _ _ hlen, List.getD_eq_getElem _ _ hs,
    List.getD_eq_getElem _ _ ha]
  exact List.getElem_zipWith

/-- Concatenating per-agent blocks that are all maps over the same batch
yields, per batch row, the concatenation of the per-agent entries. -/
lemma catDim1_map {α : Type} (g : ℕ → α → List ℚ) (l : List α) (js : List ℕ)
    (hjs : js ≠ []) :
    catDim1 (js.map (fun j => l.map (g j))) =
      l.map (fun e => (js.map (fun j => g j e)).flatten) := by
  induction js with
  | nil => exact absurd rfl hjs
  | cons j js ih =>
    cases js with
    | nil => simp [catDim1]
    | cons k ks =>
      have hne : k :: ks ≠ [] := by simp
      have hih := ih hne
      simp only [List.map_cons] at hih ⊢
      show List.zipWith (· ++ ·) (l.map (g j))
        (catDim1 ((l.map (g k)) :: ks.map (fun j => l.map (g j)))) = _
      rw [hih]
      rw [List.zipWith_map (· ++ ·) (g j) _ l l, List.zipWith_same]
      simp

/-- Moving an `if` out of the two branches of equal-shape maps. -/
lemma map_if {α : Type} (c : Prop) [Decidable c] (f h : α → List ℚ) (l : List α) :
    (if c then l.map f else l.map h) = l.map (fun e => if c then f e else h e) := by
  by_cases hc : c <;> simp [hc]

/-- A sampled batch filtered of holes is the selected records. -/
lemma validExperiences_sample (n : ℕ) (b : List Experience) :
    validExperiences (sample n b) = b.take n := by
  simp only [validExperiences, sample]
  rw [List.filterMap_map]
  simp

/-- Length evolution of the modelled buffer under one `add`. -/
lemma bufferAdd_length (b : List Experience) (e : Experience) :
    (bufferAdd b e).length = bufLenAdd b.length := by
  by_cases h : REPLAY_BUFFER_SIZE < b.length + 1 <;>
    simp [bufferAdd, bufLenAdd, h, List.length_tail]

/-- The instrumentation boolean returned by `learn` is exactly the
training-trigger condition. -/
lemma learn_snd {σ ω : Type} [Inhabited σ] (g : GradOracle σ) (n : ℕ)
    (st : AgentState σ ω) (e : Experience) :
    (learn g n st e).2 = decide ((st.steps + 1) % STEPS_BETWEEN_TRAINING = 0 ∧
      BATCH_SIZE ≤ (bufferAdd st.buffer e).length) := by
  by_cases hc : (st.steps + 1) % STEPS_BETWEEN_TRAINING = 0 ∧
      BATCH_SIZE ≤ (bufferAdd st.buffer e).length <;>
    simp [learn, hc]

/-- `learn` always increments the step counter. -/
lemma learn_fst_steps {σ ω : Type} [Inhabited σ] (g : GradOracle σ) (n : ℕ)
    (st : AgentState σ ω) (e : Experience) :
    (learn g n st e).1.steps = st.steps + 1 := by
  by_cases hc : (st.steps + 1) % STEPS_BETWEEN_TRAINING = 0 ∧
      BATCH_SIZE ≤ (bufferAdd st.buffer e).length <;>
    simp [learn, hc]

/-- `learn` always appends the experience to the buffer. -/
lemma learn_fst_buffer {σ ω : Type} [Inhabited σ] (g : GradOracle σ) (n : ℕ)
    (st : AgentState σ ω) (e : Experience) :
    (learn g n st e).1.buffer = bufferAdd st.buffer e := by
  by_cases hc : (st.steps + 1) % STEPS_BETWEEN_TRAINING = 0 ∧
      BATCH_SIZE ≤ (bufferAdd st.buffer e).length <;>
    simp [learn, hc]

/-- The trigger trail of any event interleaving is computed by the pure
cadence machine on the step counter and buffer length alone. -/
lemma runEvents_eq_cadence {σ ω : Type} [Inhabited σ] (g : GradOracle σ)
    (np : NoiseProc ω) (n : ℕ) (evs : List AgentEvent) :
    ∀ st : AgentState σ ω,
      runEvents g np n st evs = cadenceRun (st.steps, st.buffer.length) evs := by
  induction evs with
  | nil => intro st; rfl
  | cons ev evs ih =>
    intro st
    cases ev with
    | learnE e =>
      show (learn g n st e).2 :: runEvents g np n (learn g n st e).1 evs = _
      rw [learn_snd, ih, learn_fst_steps, learn_fst_buffer, bufferAdd_length]
      rfl
    | endE =>
      show runEvents g np n (end_episode np st) evs = _
      rw [ih]
      rfl

/-- The action loop produces one row per zipped (state, actor) pair. -/
lemma actRows_length {ω : Type} (np : NoiseProc ω) (noise : Bool)
    (ps : List (List ℚ × ActorNet)) :
    ∀ w : ω, ((actRows np noise ps w).1).length = ps.length := by
  induction ps with
  | nil => intro w; rfl
  | cons p ps ih => intro w; simp [actRows, ih]

/-- Every row the action loop produces has the configured width and all
entries clipped into [-1, 1]. -/
lemma actRows_spec {ω : Type} (np : NoiseProc ω) (noise : Bool) (action_size : ℕ)
    (hnp : ∀ w, ((np.sample w).1).length = action_size)
    (ps : List (List ℚ × ActorNet)) :
    ∀ w : ω, (∀ p ∈ ps, ∀ s, (p.2 s).length = action_size) →
      ∀ row ∈ (actRows np noise ps w).1,
        row.length = action_size ∧ ∀ x ∈ row, -1 ≤ x ∧ x ≤ 1 := by
  induction ps with
  | nil => intro w _ row hrow; simp [actRows] at hrow
  | cons p ps ih =>
    intro w hp row hrow
    simp only [actRows, List.mem_cons] at hrow
    rcases hrow with hrow | hrow
    · subst hrow
      constructor
      · cases noise with
        | false =>
          simp [hp p (List.mem_cons_self p ps) p.1]
        | true =>
          simp [List.length_zipWith, hp p (List.mem_cons_self p ps) p.1, hnp w]
      · intro x hx
        rcases List.mem_map.mp hx with ⟨y, _, hy⟩
        exact hy ▸ clip1_bounds y
    · exact ih _ (fun q hq => hp q (List.mem_cons_of_mem p hq)) row hrow

/-- With noise disabled the action loop leaves the noise state untouched
and its output does not depend on the noise process or its state. -/
lemma actRows_false {ω : Type} (np np' : NoiseProc ω)
    (ps : List (List ℚ × ActorNet)) :
    ∀ w w' : ω, (actRows np false ps w).2 = w ∧
      (actRows np false ps w).1 = (actRows np' false ps w').1 := by
  induction ps with
  | nil => intro w w'; exact ⟨rfl, rfl⟩
  | cons p ps ih =>
    intro w w'
    refine ⟨(ih w w').1, ?_⟩
    simp only [actRows, Bool.false_eq_true, if_false]
    rw [(ih w w').2]

/- Claim theorems. -/

/-- C1: every `learn(experience)` call appends the experience to the
replay buffer and increments the step counter by one; `train` is invoked
on a sampled batch of exactly `BATCH_SIZE` (1024) records if and only if
the incremented step counter is divisible by `STEPS_BETWEEN_TRAINING` (4)
and the buffer holds at least 1024 records; otherwise training is skipped
and the networks are untouched. -/
theorem learn_appends_increments_and_triggers {σ ω : Type} [Inhabited σ]
    (g : GradOracle σ) (n : ℕ) (st : AgentState σ ω) (e : Experience) :
    (learn g n st e).1.buffer = bufferAdd st.buffer e ∧
    (learn g n st e).1.steps = st.steps + 1 ∧
    ((learn g n st e).2 = true ↔
      ((st.steps + 1) % STEPS_BETWEEN_TRAINING = 0 ∧
        BATCH_SIZE ≤ (bufferAdd st.buffer e).length)) ∧
    ((learn g n st e).2 = true →
      (learn g n st e).1.train_state =
        train g n st.train_state (sample BATCH_SIZE (bufferAdd st.buffer e)) ∧
      (validExperiences (sample BATCH_SIZE (bufferAdd st.buffer e))).length = BATCH_SIZE) ∧
    ((learn g n st e).2 = false → (learn g n st e).1.train_state = st.train_state) := by
  by_cases hc : (st.steps + 1) % STEPS_BETWEEN_TRAINING = 0 ∧
      BATCH_SIZE ≤ (bufferAdd st.buffer e).length
  · refine ⟨?_, ?_, ?_, ?_, ?_⟩
    · simp [learn, hc]
    · simp [learn, hc]
    · simp [learn, hc]
    · intro _
      refine ⟨by simp [learn, hc], ?_⟩
      rw [validExperiences_sample, List.length_take]
      exact Nat.min_eq_left hc.2
    · intro hfalse
      exfalso
      simp [learn, hc] at hfalse
  · refine ⟨?_, ?_, ?_, ?_, ?_⟩
    · simp [learn, hc]
    · simp [learn, hc]
    · simp [learn, hc]
    · intro htrue
      exfalso
      simp [learn, hc] at htrue
    · intro _
      simp [learn, hc]

/-- C1 witness: from step counter 3 and a buffer of 1023 records, the next
`learn` call triggers training on a batch of exactly 1024 records. -/
theorem learn_appends_increments_and_triggers_witness :
    (learn g0 1 stW e0).2 = true ∧
    (validExperiences (sample BATCH_SIZE (bufferAdd stW.buffer e0))).length = BATCH_SIZE := by
  have h := learn_appends_increments_and_triggers g0 1 stW e0
  have ht : (learn g0 1 stW e0).2 = true := by
    apply h.2.2.1.mpr
    refine ⟨by decide, ?_⟩
    rw [bufferAdd_length]
    have hl : stW.buffer.length = 1023 := by
      show (List.replicate 1023 e0).length = 1023
      exact List.length_replicate _ _
    rw [hl]
    decide
  exact ⟨ht, (h.2.2.2.1 ht).2⟩

/-- C2: the critic regression target row equals
`normalized_reward + GAMMA * critic_target(full_next_states, next_actions) * (1 - done)`;
when the done flag is 1 the bootstrapped term contributes exactly 0; and
the target is independent of the local (gradient-bearing) critic and actor
networks, so the critic update treats it as a constant. -/
theorem q_target_row_formula {σ : Type} [Inhabited σ] (g : GradOracle σ)
    (ts : TrainState σ) (es : List (Option Experience)) (i r : ℕ)
    (fns na : List (List ℚ))
    (h1 : r < (validExperiences es).length) (h2 : r < fns.length) (h3 : r < na.length) :
    (qTargetUsed g ts es i fns na).getD r 0 =
      (normalizedRewards g es i).getD r 0 +
        GAMMA * ((ts.critic_targets.getD i defCritic) (fns.getD r []) (na.getD r [])) *
          (1 - (vectorize_dones es i).getD r 0) ∧
    ((vectorize_dones es i).getD r 0 = 1 →
      (qTargetUsed g ts es i fns na).getD r 0 = (normalizedRewards g es i).getD r 0) ∧
    (∀ (cs : List CriticNet) (as_ : List ActorNet),
      qTargetUsed g { ts with critics := cs, actors := as_ } es i fns na =
        qTargetUsed g ts es i fns na) := by
  have hnr : r < (normalizedRewards g es i).length := by
    simpa [normalizedRewards, normalizeWith, vectorize_rewards] using h1
  have hdn : r < (vectorize_dones es i).length := by
    simpa [vectorize_dones] using h1
  have hcb : r < (criticBatch (ts.critic_targets.getD i defCritic) fns na).length := by
    simp only [criticBatch, List.length_zipWith]
    omega
  have main : (qTargetUsed g ts es i fns na).getD r 0 =
      (normalizedRewards g es i).getD r 0 +
        GAMMA * ((ts.critic_targets.getD i defCritic) (fns.getD r []) (na.getD r [])) *
          (1 - (vectorize_dones es i).getD r 0) := by
    unfold qTargetUsed q_target_rows
    rw [getD_zipWith3 _ _ _ _ r hnr hcb hdn, getD_criticBatch _ _ _ r h2 h3]
  refine ⟨main, ?_, ?_⟩
  · intro hdone
    rw [main, hdone]
    ring
  · intro cs as_
    rfl

/-- C2 witness: on a single-record batch with done flag 1, the target row
reduces to the normalized reward alone. -/
theorem q_target_row_formula_witness :
    (vectorize_dones esC2 0).getD 0 0 = 1 ∧
    (qTargetUsed g0 tsC2 esC2 0 [[0]] [[0]]).getD 0 0 =
      (normalizedRewards g0 esC2 0).getD 0 0 := by
  have h := q_target_row_formula g0 tsC2 esC2 0 0 [[0]] [[0]]
    (by decide) (by decide) (by decide)
  have hd : (vectorize_dones esC2 0).getD 0 0 = 1 := by decide
  exact ⟨hd, h.2.1 hd⟩

/-- C3: the joint action rows used for agent `agent_index`'s policy loss
are, per batch record, the agent-index-ordered concatenation in which
component `agent_index` is that agent's current actor evaluated on its own
batch states and every other component is the stored batch action of that
agent. -/
theorem policy_joint_action_rows (actors : List ActorNet) (n : ℕ)
    (es : List (Option Experience)) (agent_index : ℕ) (hn : 0 < n) :
    predict_and_vectorize_actions actors n es agent_index =
      (validExperiences es).map (fun e =>
        ((List.range n).map (fun j =>
          if j = agent_index then (actors.getD agent_index defActor) (e.states.getD j [])
          else e.actions.getD j [])).flatten) := by
  unfold predict_and_vectorize_actions
  simp only [map_if]
  apply catDim1_map
  simp only [ne_eq, List.range_eq_nil]
  omega

/-- C3 witness: with two agents, one stored record and agent 0 as the
updated agent, the single joint row is the current actor output followed
by the stored action of agent 1. -/
theorem policy_joint_action_rows_witness :
    0 < 2 ∧
    predict_and_vectorize_actions actors5 2 [some eDone] 0 =
      (validExperiences [some eDone]).map (fun e =>
        ((List.range 2).map (fun j =>
          if j = 0 then (actors5.getD 0 defActor) (e.states.getD j [])
          else e.actions.getD j [])).flatten) :=
  ⟨by decide, policy_joint_action_rows actors5 2 [some eDone] 0 (by decide)⟩

/-- C4: `train` computes `next_actions` and the joint
`actions`/`full_states`/`full_next_states` exactly once before the
per-agent loop, every agent's update reads those same fixed values
(computed from the state before any agent in the batch was updated), and
each `next_actions` row is the agent-index-ordered concatenation of the
pre-update target actors applied to each agent's own next-states. -/
theorem train_precomputed_joint_data {σ : Type} [Inhabited σ] (g : GradOracle σ)
    (n : ℕ) (ts : TrainState σ) (es : List (Option Experience)) (hn : 0 < n) :
    train g n ts es =
      (List.range n).foldl
        (fun acc i => trainAgentStep g n es
          (predict_and_vectorize_next_actions ts.actor_targets n es)
          (vectorize_joint_actions es) (vectorize_full_states es)
          (vectorize_full_next_states es) acc i) ts ∧
    predict_and_vectorize_next_actions ts.actor_targets n es =
      (validExperiences es).map (fun e =>
        ((List.range n).map (fun i =>
          (ts.actor_targets.getD i defActor) (e.next_states.getD i []))).flatten) := by
  constructor
  · rfl
  · unfold predict_and_vectorize_next_actions
    apply catDim1_map
    simp only [ne_eq, List.range_eq_nil]
    omega

/-- C4 witness: the precomputation equation evaluated at one agent and an
empty batch. -/
theorem train_precomputed_joint_data_witness :
    0 < 1 ∧
    (train g0 1 ts0 [] =
      (List.range 1).foldl
        (fun acc i => trainAgentStep g0 1 []
          (predict_and_vectorize_next_actions ts0.actor_targets 1 [])
          (vectorize_joint_actions []) (vectorize_full_states [])
          (vectorize_full_next_states []) acc i) ts0 ∧
    predict_and_vectorize_next_actions ts0.actor_targets 1 [] =
      (validExperiences ([] : List (Option Experience))).map (fun e =>
        ((List.range 1).map (fun i =>
          (ts0.actor_targets.getD i defActor) (e.next_states.getD i []))).flatten)) :=
  ⟨by decide, train_precomputed_joint_data g0 1 ts0 [] (by decide)⟩

/-- C5: `act` returns one row per agent in agent-index order, each row of
the configured action width with every entry clipped into the closed
interval [-1, 1], for noise enabled or disabled. -/
theorem act_shape_and_bounds {ω : Type} (np : NoiseProc ω) (actors : List ActorNet)
    (all_states : List (List ℚ)) (noise : Bool) (w : ω) (num_agents action_size : ℕ)
    (h1 : all_states.length = num_agents) (h2 : actors.length = num_agents)
    (h3 : ∀ a ∈ actors, ∀ s, (a s).length = action_size)
    (h4 : ∀ w, ((np.sample w).1).length = action_size) :
    ((act np actors all_states noise w).1).length = num_agents ∧
    ∀ row ∈ (act np actors all_states noise w).1,
      row.length = action_size ∧ ∀ x ∈ row, -1 ≤ x ∧ x ≤ 1 := by
  constructor
  · show ((actRows np noise (all_states.zip actors) w).1).length = num_agents
    rw [actRows_length, List.length_zip, h1, h2, Nat.min_self]
  · apply actRows_spec np noise action_size h4
    intro p hp s
    exact h3 p.2 (List.of_mem_zip hp).2 s

/-- C5 witness: one agent of action width 2, a large fixed noise vector,
and an actor output partly outside [-1, 1]: the returned row still lies in
bounds. -/
theorem act_shape_and_bounds_witness :
    ((act npBig actors5 [[0]] true ()).1).length = 1 ∧
    ∀ row ∈ (act npBig actors5 [[0]] true ()).1,
      row.length = 2 ∧ ∀ x ∈ row, -1 ≤ x ∧ x ≤ 1 :=
  act_shape_and_bounds npBig actors5 [[0]] true () 1 2 rfl rfl
    (fun a ha _ => by rw [List.mem_singleton.mp ha]; exact rfl) (fun _ => rfl)

/-- C6: immediately after construction, every agent's actor target
parameters equal its actor parameters and every agent's critic target
parameters equal its critic parameters (soft update with blend factor 1 is
a full copy). -/
theorem targets_equal_locals_after_construction (n : ℕ) (p : NetworkInit) (i : ℕ)
    (hi : i < n)
    (ha : ∀ j, (p.actorLocal j).length ≤ (p.actorTargetRaw j).length)
    (hc : ∀ j, (p.criticLocal j).length ≤ (p.criticTargetRaw j).length) :
    (constructParams n p).actor_target_params.getD i [] =
      (constructParams n p).actor_params.getD i [] ∧
    (constructParams n p).critic_target_params.getD i [] =
      (constructParams n p).critic_params.getD i [] := by
  constructor
  · show ((List.range n).map
        (fun j => soft_update 1 (p.actorTargetRaw j) (p.actorLocal j))).getD i [] =
      ((List.range n).map p.actorLocal).getD i []
    rw [getD_map_range _ n i hi, getD_map_range _ n i hi]
    exact soft_update_one _ _ (ha i)
  · show ((List.range n).map
        (fun j => soft_update 1 (p.criticTargetRaw j) (p.criticLocal j))).getD i [] =
      ((List.range n).map p.criticLocal).getD i []
    rw [getD_map_range _ n i hi, getD_map_range _ n i hi]
    exact soft_update_one _ _ (hc i)

/-- C6 witness: a concrete one-agent construction with matching parameter
vector lengths. -/
theorem targets_equal_locals_after_construction_witness :
    (constructParams 1 p0).actor_target_params.getD 0 [] =
      (constructParams 1 p0).actor_params.getD 0 [] ∧
    (constructParams 1 p0).critic_target_params.getD 0 [] =
      (constructParams 1 p0).critic_params.getD 0 [] :=
  targets_equal_locals_after_construction 1 p0 0 (by decide)
    (fun _ => le_refl _) (fun _ => le_refl _)

/-- C7 counterexample: with a buffer of 1021 records and step counter 0,
four `learn` calls trigger training on the fourth, but the same four
`learn` calls with an `end_episode` inserted before the last trigger no
training at all — the trigger trail depends on where `end_episode` occurs,
because `end_episode` resets the step counter. -/
theorem cadence_depends_on_episode_boundaries :
    runEvents g0 np0 1 stA evsNoEnd ≠ runEvents g0 np0 1 stA evsWithEnd := by
  rw [runEvents_eq_cadence, runEvents_eq_cadence]
  have hl : stA.buffer.length = 1021 := by
    show (List.replicate 1021 e0).length = 1021
    exact List.length_replicate _ _
  rw [hl]
  decide

/-- C7 amended: whether a `learn` call triggers training is determined
entirely by the step counter (which counts `learn` calls since
construction or the last `end_episode`, because `end_episode` resets it to
0) together with the buffer fill; it is not invariant under moving
`end_episode` calls. -/
theorem cadence_determined_by_steps_and_buffer {σ ω : Type} [Inhabited σ]
    (g : GradOracle σ) (np : NoiseProc ω) (n : ℕ) (st : AgentState σ ω)
    (evs : List AgentEvent) :
    runEvents g np n st evs = cadenceRun (st.steps, st.buffer.length) evs :=
  runEvents_eq_cadence g np n evs st

/-- C8: the rewards used in the critic target are normalized within the
sampled minibatch only, by `(reward - batch_mean) / (batch_std + 1e-5)`
with the mean and (Bessel-corrected, per torch `std`) standard deviation
of agent `i`'s rewards in this batch; they are a pure function of the
batch, with no state carried across training calls. -/
theorem reward_normalization_formula {σ : Type} [Inhabited σ] (g : GradOracle σ)
    (es es2 : List (Option Experience)) (i : ℕ)
    (hs : 0 ≤ g.std (vectorize_rewards es i))
    (hv : (g.std (vectorize_rewards es i)) ^ 2 = batchVarUnbiased (vectorize_rewards es i)) :
    normalizedRewards g es i =
      (vectorize_rewards es i).map (fun x =>
        (x - batchMean (vectorize_rewards es i)) /
          (g.std (vectorize_rewards es i) + 1 / 100000)) ∧
    (vectorize_rewards es2 i = vectorize_rewards es i →
      normalizedRewards g es2 i = normalizedRewards g es i) ∧
    (∀ (ts : TrainState σ) (fns na : List (List ℚ)),
      qTargetUsed g ts es i fns na =
        q_target_rows (ts.critic_targets.getD i defCritic)
          ((vectorize_rewards es i).map (fun x =>
            (x - batchMean (vectorize_rewards es i)) /
              (g.std (vectorize_rewards es i) + 1 / 100000)))
          (vectorize_dones es i) fns na) := by
  refine ⟨rfl, ?_, ?_⟩
  · intro h
    unfold normalizedRewards
    rw [h]
  · intro ts fns na
    rfl

/-- C8 witness: the batch rewards [0, 2, 4] have mean 2 and exact sample
standard deviation 2, and the normalized rewards match the formula. -/
theorem reward_normalization_formula_witness :
    (0 : ℚ) ≤ gStd2.std (vectorize_rewards esRew 0) ∧
    (gStd2.std (vectorize_rewards esRew 0)) ^ 2 = batchVarUnbiased (vectorize_rewards esRew 0) ∧
    normalizedRewards gStd2 esRew 0 =
      (vectorize_rewards esRew 0).map (fun x =>
        (x - batchMean (vectorize_rewards esRew 0)) /
          (gStd2.std (vectorize_rewards esRew 0) + 1 / 100000)) := by
  have hstd : gStd2.std (vectorize_rewards esRew 0) = 2 := rfl
  have hr : vectorize_rewards esRew 0 = [0, 2, 4] := by
    simp [vectorize_rewards, validExperiences, esRew, eRew0, eRew2, eRew4]
  have hs : (0 : ℚ) ≤ gStd2.std (vectorize_rewards esRew 0) := by
    rw [hstd]
    norm_num
  have hv : (gStd2.std (vectorize_rewards esRew 0)) ^ 2 =
      batchVarUnbiased (vectorize_rewards esRew 0) := by
    rw [hstd, hr]
    norm_num [batchVarUnbiased, batchMean]
  exact ⟨hs, hv, (reward_normalization_formula gStd2 esRew esRew 0 hs hv).1⟩

/-- C9: calling `act` with noise disabled leaves the exploration process
state unchanged, and the returned action matrix does not depend on the
noise process or its state — so two such calls on identical input with
identical networks return identical output. -/
theorem act_noise_free_deterministic {ω : Type} (np np' : NoiseProc ω)
    (actors : List ActorNet) (all_states : List (List ℚ)) (w w' : ω) :
    (act np actors all_states false w).2 = w ∧
    (act np actors all_states false w).1 = (act np' actors all_states false w').1 :=
  actRows_false np np' (all_states.zip actors) w w'

/-- C10: a `learn` call whose trigger condition fails changes only the
replay buffer (one record appended) and the step counter (incremented by
one): the train state (all networks, targets and optimizer states) and the
exploration process state are untouched and no training happens. -/
theorem learn_skip_frame_condition {σ ω : Type} [Inhabited σ] (g : GradOracle σ)
    (n : ℕ) (st : AgentState σ ω) (e : Experience)
    (h : ¬((st.steps + 1) % STEPS_BETWEEN_TRAINING = 0 ∧
          BATCH_SIZE ≤ (bufferAdd st.buffer e).length)) :
    (learn g n st e).1.train_state = st.train_state ∧
    (learn g n st e).1.noiseState = st.noiseState ∧
    (learn g n st e).1.buffer = bufferAdd st.buffer e ∧
    (learn g n st e).1.steps = st.steps + 1 ∧
    (learn g n st e).2 = false := by
  simp [learn, h]

/-- C10 witness: from step counter 0 with an empty buffer, the next
`learn` call skips training and leaves networks and noise state intact. -/
theorem learn_skip_frame_condition_witness :
    (learn g0 1 stQ e0).1.train_state = stQ.train_state ∧
    (learn g0 1 stQ e0).1.noiseState = stQ.noiseState ∧
    (learn g0 1 stQ e0).1.buffer = bufferAdd stQ.buffer e0 ∧
    (learn g0 1 stQ e0).1.steps = stQ.steps + 1 ∧
    (learn g0 1 stQ e0).2 = false :=
  learn_skip_frame_condition g0 1 stQ e0 (by decide)
